import Mathlib

/-!
Verification development for the jipcy candidate-evaluation pipeline.

The Go sources are shallowly embedded: pure functions become Lean
functions, remote services become explicit environments, machine floats
(similarity scores) are modelled as rationals, and the per-candidate
goroutines of the scheduler become an explicit interleaving semantics.
-/

namespace Jipcy

/-- Model of Go `strings.Join(l, sep)`. -/
def goJoin (sep : String) : List String → String
  | [] => ""
  | [x] => x
  | x :: y :: xs => x ++ sep ++ goJoin sep (y :: xs)

/-- Model of Go `strings.ReplaceAll(s, "@", "＠")`.  Since `"@"` is a
single ASCII character and Go strings are UTF-8 (where an ASCII byte can
never occur inside a multi-byte sequence), replacing every occurrence of
the substring `"@"` is exactly a character-wise replacement. -/
def replaceAtSigns (s : String) : String :=
  String.mk (s.data.map (fun c => if c = '@' then '＠' else c))

/-- Inner node of the ADF (Atlassian Document Format) structure
(`ADFContent.Content[i].Content[j]` in `jira.go`): a type tag and an
optional text payload. -/
structure ADFInner where
  type : String
  text : String
deriving DecidableEq, Repr

/-- Middle node of the ADF structure (`ADFContent.Content[i]`). -/
structure ADFBlock where
  type : String
  content : List ADFInner
deriving DecidableEq, Repr

/-- Top-level ADF document (`ADFContent` in `jira.go`). -/
structure ADFContent where
  type : String
  version : Nat
  content : List ADFBlock
deriving DecidableEq, Repr

/-- Embedding of `extractTextFromADF` (jira.go): collect the non-empty
text payloads and join them with a single space. -/
def extractTextFromADF (adf : ADFContent) : String :=
  goJoin " " ((adf.content.flatMap (fun c => c.content)).filterMap
    (fun inner => if inner.text ≠ "" then some inner.text else none))

/-- One entry of `Issue.Fields.Comment.Comments` in `jira.go`. -/
structure JiraComment where
  body : ADFContent
  created : String
  authorDisplayName : String
deriving DecidableEq, Repr

/-- The fields of the custom Jira v3 `Issue` struct used by the service. -/
structure IssueFields where
  summary : String
  description : ADFContent
  comments : List JiraComment
deriving DecidableEq, Repr

/-- The custom Jira v3 `Issue` struct (`jira.go`). -/
structure Issue where
  id : String
  key : String
  fields : IssueFields
deriving DecidableEq, Repr

/-- Embedding of `(*Issue).GetDescription` (jira.go). -/
def getDescription (i : Issue) : String :=
  extractTextFromADF i.fields.description

/-- The string built for one comment inside `(*Issue).GetComments`
(jira.go): `fmt.Sprintf("作成者: %s\n作成日時: %s\n内容: %s", ...)`. -/
def renderComment (c : JiraComment) (text : String) : String :=
  "作成者: " ++ c.authorDisplayName ++ "\n作成日時: " ++ c.created ++ "\n内容: " ++ text

/-- Embedding of `(*Issue).GetComments` (jira.go): comments whose ADF
body extracts to the empty string are skipped; the others are rendered in
source order. -/
def getComments (i : Issue) : List String :=
  i.fields.comments.filterMap (fun c =>
    let commentText := extractTextFromADF c.body
    if commentText = "" then none else some (renderComment c commentText))

/-- The comments-history section built inside `formatIssue`
(select_top_issue.go): each comment is neutralized with
`strings.ReplaceAll(comment, "@", "＠")`, given a `### ` heading, and the
results are joined with blank lines. -/
def commentsSection (issue : Issue) : String :=
  goJoin "\n\n" ((getComments issue).map (fun comment => "### " ++ replaceAtSigns comment))

/-- Embedding of `formatIssue` (select_top_issue.go). -/
def formatIssue (issue : Issue) : String :=
  "## 概要\n" ++ issue.fields.summary ++ "\n## 詳細\n" ++ getDescription issue
    ++ "\n## コメントの履歴\n" ++ commentsSection issue

/-- A Slack thread message (`model.ThreadMessage`). -/
structure ThreadMessage where
  channelID : String
  timestamp : String
  user : String
  text : String
deriving DecidableEq, Repr

/-- `model.Result` (model.go).  The float64 `Similarity` is modelled as a
rational. -/
structure GoResult where
  id : String
  summary : String
  description : String
  url : String
  similarity : ℚ
  contentSummary : String
  generatedSummary : String
  slackThread : String
  slackThreadURL : String
deriving DecidableEq, Repr

/-- The Go zero value `model.Result{}`: the empty / excluded marker. -/
def emptyResult : GoResult :=
  { id := "", summary := "", description := "", url := "", similarity := 0,
    contentSummary := "", generatedSummary := "", slackThread := "", slackThreadURL := "" }

/-- The acceptance threshold `0.3` used by the evaluator, i.e. the
rational `3/10` (given by its reduced numerator and denominator so that
comparisons against it evaluate by kernel reduction). -/
def threshold : ℚ := ⟨3, 10, by decide, by decide⟩

/-- What one execution of the retried closure observes from the three
remote calls when it does not fail: the Slack threads found for the
issue, the string `FormattedSearchThreads` renders from them, and the
similarity score from the OpenAI call.  A failing execution is an
`Except.error` carrying the wrapped error message. -/
structure AttemptData where
  threads : List ThreadMessage
  formattedThreads : String
  similarity : ℚ
deriving DecidableEq, Repr

/-- Embedding of `retry.Retry(3, 3*time.Second, fn)` (songmu/retry):
run the closure up to three times, stopping at the first success;
if every attempt fails, the last error is returned.  `attempts k` is the
outcome of the `k`-th execution of the closure. -/
def retryGo (attempts : Nat → Except String AttemptData) : Except String AttemptData :=
  match attempts 0 with
  | .ok d => .ok d
  | .error _ =>
    match attempts 1 with
    | .ok d => .ok d
    | .error _ => attempts 2

/-- Run-wide environment of `SelectTopIssues` (select_top_issue.go):
the (already `/`-trimmed) `JIRA_ENDPOINT`, the `SLACK_WORKSPACE_URL`,
and the behaviour of the remote services, indexed by issue position and
attempt number. -/
structure SEnv where
  jiraEndpoint : String
  workspaceURL : String
  attempts : Nat → Nat → Except String AttemptData

/-- The `model.Result` built on a successful attempt with an accepted
score (select_top_issue.go lines 112-125), including the
`SlackThreadURL` taken from the first found thread, if any. -/
def buildResult (env : SEnv) (issue : Issue) (d : AttemptData) : GoResult :=
  let jiraURL := env.jiraEndpoint ++ "/browse/" ++ issue.key
  let base : GoResult :=
    { id := issue.id, summary := issue.fields.summary,
      description := getDescription issue, url := jiraURL,
      similarity := d.similarity, contentSummary := formatIssue issue,
      generatedSummary := "", slackThread := d.formattedThreads,
      slackThreadURL := "" }
  match d.threads with
  | [] => base
  | t :: _ =>
    { base with slackThreadURL :=
        env.workspaceURL ++ "/archives/" ++ t.channelID ++ "/p" ++ t.timestamp }

/-- A Slack progress notification emitted by an evaluator goroutine. -/
inductive NEvent where
  | start (key : String)
  | procError (key : String) (err : String)
  | complete (key : String) (similarity : ℚ)
deriving DecidableEq, Repr

/-- Embedding of the body of one evaluator goroutine
(select_top_issue.go lines 74-151): the start notification, the retried
evaluation, the degradation of an exhausted retry or a below-threshold
score to the empty result, the error notification on exhausted retries,
and the completion notification carrying `result.Similarity`.  Returns
the value written into the goroutine's result slot together with the
notifications it emitted, in order. -/
def evalIssue (env : SEnv) (i : Nat) (issue : Issue) : GoResult × List NEvent :=
  match retryGo (env.attempts i) with
  | .error e =>
    (emptyResult,
     [.start issue.key, .procError issue.key e,
      .complete issue.key emptyResult.similarity])
  | .ok d =>
    if d.similarity < threshold then
      (emptyResult, [.start issue.key, .complete issue.key emptyResult.similarity])
    else
      let r := buildResult env issue d
      (r, [.start issue.key, .complete issue.key r.similarity])

/-- The contents of the `results` slice after `g.Wait()` returns:
slot `i` holds the result of issue `i`'s evaluator. -/
def resultSlots (env : SEnv) (issues : List Issue) : List GoResult :=
  issues.enum.map (fun p => (evalIssue env p.1 p.2).1)

/-- The notifications emitted for each issue (one list per issue, in
issue order; the interleaving between goroutines is not constrained by
the code). -/
def runEvents (env : SEnv) (issues : List Issue) : List (List NEvent) :=
  if issues.isEmpty then [] else issues.enum.map (fun p => (evalIssue env p.1 p.2).2)

/-- Sorted the way `sort.Slice(convIssues, less)` with
`less i j := convIssues[i].Similarity > convIssues[j].Similarity`
guarantees: similarity never increases along the list. -/
def sortedDesc (l : List GoResult) : Prop :=
  l.Pairwise (fun x y => y.similarity ≤ x.similarity)

/-- The guarantee Go's `sort.Slice` gives for its output: a permutation
of the input, sorted according to the comparator.  Stability is
explicitly NOT part of the contract ("The sort is not guaranteed to be
stable: equal elements may be reversed from their original order"). -/
def goSortSliceRel (inp out : List GoResult) : Prop :=
  List.Perm inp out ∧ sortedDesc out

/-- Embedding of the aggregation phase of `SelectTopIssues`
(select_top_issue.go lines 159-181): drop the slots whose `ID` is unset,
return `[]` if nothing remains, otherwise sort by similarity descending
(`sort.Slice`, related nondeterministically through its contract) and
keep at most the first five. -/
def aggregateRel (results : List GoResult) (out : List GoResult) : Prop :=
  let convIssues := results.filter (fun r => r.id ≠ "")
  if convIssues.length = 0 then out = []
  else ∃ s, goSortSliceRel convIssues s ∧
    out = (if s.length < 5 then s else s.take 5)

/-- Embedding of the whole of `SelectTopIssues` (select_top_issue.go):
an empty issue list returns `([], nil)` immediately; otherwise the
evaluators run, every goroutine returns `nil` on all of its paths, so
`g.Wait()` succeeds and the aggregation of the filled result slots is
returned without error. -/
def runSelectTopIssues (env : SEnv) (issues : List Issue)
    (out : Except String (List GoResult)) : Prop :=
  if issues.isEmpty then out = .ok []
  else ∃ l, aggregateRel (resultSlots env issues) l ∧ out = .ok l

/-- Ties broken by input-slot order: whenever `x` appears before `y` in
`out` with the same similarity, `x`'s slot comes before `y`'s slot in
the per-candidate `results` slice. -/
def stableForTies (results out : List GoResult) : Prop :=
  out.Pairwise (fun x y => x.similarity = y.similarity → results.indexOf x < results.indexOf y)

namespace GoSort

/-!
Faithful executable embedding of Go 1.21's `sort.Slice`
(`sort/slice.go` + `sort/zsortfunc.go`): pattern-defeating quicksort.
The slice under sort is carried as a `List α` (`data.Less(i, j)` reads
two cells, `data.Swap(i, j)` exchanges two cells; every index the
algorithm touches lies inside `[0, n)`).  Loops
are given explicit fuel; the fuel bounds are generous enough that they
are never exhausted on the inputs evaluated in this development, and an
exhausted loop returns the data unchanged.  The `uint64` arithmetic of
the xorshift generator is modelled as `Nat` arithmetic modulo `2 ^ 64`.
-/

variable {α : Type}

/-- `data.Less(i, j)` (an out-of-bounds read, which the algorithm never
performs, answers `false`). -/
def lessAt (less : α → α → Bool) (d : List α) (i j : Nat) : Bool :=
  match d.get? i, d.get? j with
  | some x, some y => less x y
  | _, _ => false

/-- `data.Swap(i, j)` (an out-of-bounds index, which the algorithm never
produces, leaves the data unchanged). -/
def swapAt (d : List α) (i j : Nat) : List α :=
  match d.get? i, d.get? j with
  | some x, some y => (d.set i y).set j x
  | _, _ => d

/-- Inner loop of `insertionSort_func`: shift `data[j]` left while it is
less than its predecessor and `j > a`. -/
def insertInner (less : α → α → Bool) (d : List α) (a : Nat) : Nat → List α
  | 0 => d
  | j+1 =>
    if a < j + 1 then
      if lessAt less d (j+1) j then insertInner less (swapAt d (j+1) j) a j else d
    else d

/-- Outer loop of `insertionSort_func`. -/
def insertionSortLoop (less : α → α → Bool) (d : List α) (i b a : Nat) :
    Nat → List α
  | 0 => d
  | fuel+1 =>
    if i < b then insertionSortLoop less (insertInner less d a i) (i+1) b a fuel
    else d

/-- `insertionSort_func(data, a, b)`: sorts `data[a:b]`. -/
def insertionSortGo (less : α → α → Bool) (d : List α) (a b : Nat) : List α :=
  insertionSortLoop less d (a+1) b a (b - a)

/-- `siftDown_func(data, lo, hi, first)` with `root` starting at `lo`. -/
def siftDownLoop (less : α → α → Bool) (d : List α) (root hi first : Nat) :
    Nat → List α
  | 0 => d
  | fuel+1 =>
    let child := 2*root + 1
    if child ≥ hi then d
    else
      let child := if child + 1 < hi then
          (if lessAt less d (first+child) (first+child+1) then child + 1 else child)
        else child
      if !(lessAt less d (first+root) (first+child)) then d
      else siftDownLoop less (swapAt d (first+root) (first+child)) child hi first fuel

/-- First loop of `heapSort_func`: build the heap, `i` descending from
`(hi-1)/2` to `0`. -/
def heapBuild (less : α → α → Bool) (d : List α) (i hi first : Nat) : List α :=
  match i with
  | 0 => siftDownLoop less d 0 hi first (hi+1)
  | k+1 => heapBuild less (siftDownLoop less d (k+1) hi first (hi+1)) k hi first

/-- Second loop of `heapSort_func`: pop the maximum repeatedly, `i`
descending from `hi-1` to `0`. -/
def heapPop (less : α → α → Bool) (d : List α) (i first : Nat) : List α :=
  match i with
  | 0 => siftDownLoop less (swapAt d first first) 0 0 first 1
  | k+1 =>
    heapPop less
      (siftDownLoop less (swapAt d first (first+(k+1))) 0 (k+1) first (k+2)) k first

/-- `heapSort_func(data, a, b)`. -/
def heapSortGo (less : α → α → Bool) (d : List α) (a b : Nat) : List α :=
  let first := a
  let hi := b - a
  let built := heapBuild less d ((hi-1)/2) hi first
  if hi = 0 then built else heapPop less built (hi-1) first

/-- `reverseRange_func(data, a, b)`. -/
def reverseRangeLoop (d : List α) (i j : Nat) : Nat → List α
  | 0 => d
  | fuel+1 => if i < j then reverseRangeLoop (swapAt d i j) (i+1) (j-1) fuel else d

/-- `reverseRange_func(data, a, b)`. -/
def reverseRangeGo (d : List α) (a b : Nat) : List α :=
  reverseRangeLoop d a (b-1) b

/-- One step of the `xorshift` generator on `uint64`. -/
def xorshiftNext (r : Nat) : Nat :=
  let m := 2 ^ 64
  let r1 := (r ^^^ ((r <<< 13) % m)) % m
  let r2 := (r1 ^^^ (r1 >>> 7)) % m
  (r2 ^^^ ((r2 <<< 17) % m)) % m

/-- `bits.Len(uint(n))`: the number of bits of `n`. -/
def bitsLenAux : Nat → Nat → Nat
  | 0, _ => 0
  | _+1, 0 => 0
  | f+1, n+1 => bitsLenAux f ((n+1)/2) + 1

/-- `bits.Len(uint(n))`. -/
def goBitsLen (n : Nat) : Nat := bitsLenAux n n

/-- `breakPatterns_func(data, a, b)`: scatter three elements using the
xorshift generator seeded with the length (`&(modulus-1)` is `% modulus`
because `modulus` is a power of two). -/
def breakPatternsGo (d : List α) (a b : Nat) : List α :=
  let length := b - a
  if length ≥ 8 then
    let modulus := 1 <<< goBitsLen length
    let idx := a + (length/4)*2 - 1
    let r1 := xorshiftNext length
    let o1 := if r1 % modulus ≥ length then r1 % modulus - length else r1 % modulus
    let d1 := swapAt d (idx-1) (a+o1)
    let r2 := xorshiftNext r1
    let o2 := if r2 % modulus ≥ length then r2 % modulus - length else r2 % modulus
    let d2 := swapAt d1 idx (a+o2)
    let r3 := xorshiftNext r2
    let o3 := if r3 % modulus ≥ length then r3 % modulus - length else r3 % modulus
    swapAt d2 (idx+1) (a+o3)
  else d

/-- The `sortedHint` values of `zsortfunc.go`. -/
inductive SortedHint where
  | unknown
  | increasing
  | decreasing
deriving DecidableEq, Repr

/-- `order2_func(data, a, b, &swaps)`. -/
def order2Go (less : α → α → Bool) (d : List α) (a b swaps : Nat) :
    Nat × Nat × Nat :=
  if lessAt less d b a then (b, a, swaps+1) else (a, b, swaps)

/-- `median_func(data, a, b, c, &swaps)`. -/
def medianGo (less : α → α → Bool) (d : List α) (a b c swaps : Nat) : Nat × Nat :=
  match order2Go less d a b swaps with
  | (a1, b1, s1) =>
    match order2Go less d b1 c s1 with
    | (b2, _, s2) =>
      match order2Go less d a1 b2 s2 with
      | (_, b3, s3) => (b3, s3)

/-- `medianAdjacent_func(data, a, &swaps)`. -/
def medianAdjacentGo (less : α → α → Bool) (d : List α) (a swaps : Nat) :
    Nat × Nat :=
  medianGo less d (a-1) a (a+1) swaps

/-- Convert the final swap counter into a `sortedHint`
(`maxSwaps = 4 * 3`). -/
def hintOfSwaps (swaps : Nat) : SortedHint :=
  if swaps = 0 then .increasing
  else if swaps = 12 then .decreasing
  else .unknown

/-- `choosePivot_func(data, a, b)` (`shortestNinther = 50`). -/
def choosePivotGo (less : α → α → Bool) (d : List α) (a b : Nat) :
    Nat × SortedHint :=
  let l := b - a
  let i := a + l/4*1
  let j := a + l/4*2
  let k := a + l/4*3
  if l ≥ 8 then
    if l ≥ 50 then
      match medianAdjacentGo less d i 0 with
      | (i1, s1) =>
        match medianAdjacentGo less d j s1 with
        | (j1, s2) =>
          match medianAdjacentGo less d k s2 with
          | (k1, s3) =>
            match medianGo less d i1 j1 k1 s3 with
            | (m, s4) => (m, hintOfSwaps s4)
    else
      match medianGo less d i j k 0 with
      | (m, s) => (m, hintOfSwaps s)
  else (j, hintOfSwaps 0)

/-- `for i < b && !data.Less(i, i-1) { i++ }` in
`partialInsertionSort_func`. -/
def advanceSorted (less : α → α → Bool) (d : List α) (i b : Nat) : Nat → Nat
  | 0 => i
  | fuel+1 =>
    if i < b then
      if !(lessAt less d i (i-1)) then advanceSorted less d (i+1) b fuel else i
    else i

/-- The shift-left inner loop of `partialInsertionSort_func`
(`for j := i - 1; j >= 1; j--`). -/
def shiftLeftLoop (less : α → α → Bool) (d : List α) : Nat → List α
  | 0 => d
  | j+1 =>
    if lessAt less d (j+1) j then shiftLeftLoop less (swapAt d (j+1) j) j else d

/-- The shift-right inner loop of `partialInsertionSort_func`
(`for j := i + 1; j < b; j++`). -/
def shiftRightLoop (less : α → α → Bool) (d : List α) (j b : Nat) : Nat → List α
  | 0 => d
  | fuel+1 =>
    if j < b then
      if lessAt less d j (j-1) then shiftRightLoop less (swapAt d j (j-1)) (j+1) b fuel
      else d
    else d

/-- The body of `partialInsertionSort_func(data, a, b)` (`maxSteps = 5`,
`shortestShifting = 50`); returns the (possibly modified) data and
whether the range is known sorted. -/
def partInsertionSortSteps (less : α → α → Bool) (d : List α) (i a b : Nat) :
    Nat → List α × Bool
  | 0 => (d, false)
  | steps+1 =>
    let i' := advanceSorted less d i b (b+1)
    if i' = b then (d, true)
    else if b - a < 50 then (d, false)
    else
      let d1 := swapAt d i' (i'-1)
      let d2 := if i' - a ≥ 2 then shiftLeftLoop less d1 (i'-1) else d1
      let d3 := if b - i' ≥ 2 then shiftRightLoop less d2 (i'+1) b b else d2
      partInsertionSortSteps less d3 i' a b steps

/-- `partialInsertionSort_func(data, a, b)`. -/
def partInsertionSortGo (less : α → α → Bool) (d : List α) (a b : Nat) :
    List α × Bool :=
  partInsertionSortSteps less d (a+1) a b 5

/-- `for i <= j && data.Less(i, a) { i++ }` in `partition_func`. -/
def scanLess (less : α → α → Bool) (d : List α) (i j a : Nat) : Nat → Nat
  | 0 => i
  | fuel+1 =>
    if i ≤ j then
      if lessAt less d i a then scanLess less d (i+1) j a fuel else i
    else i

/-- `for i <= j && !data.Less(j, a) { j-- }` in `partition_func`. -/
def scanGreaterEq (less : α → α → Bool) (d : List α) (i j a : Nat) : Nat → Nat
  | 0 => j
  | fuel+1 =>
    if i ≤ j then
      if !(lessAt less d j a) then scanGreaterEq less d i (j-1) a fuel else j
    else j

/-- The main loop of `partition_func`; returns the data and the final
`j`. -/
def partitionLoop (less : α → α → Bool) (d : List α) (i j a : Nat) :
    Nat → List α × Nat
  | 0 => (d, j)
  | fuel+1 =>
    let i' := scanLess less d i j a (j+2)
    let j' := scanGreaterEq less d i' j a (j+2)
    if i' > j' then (d, j')
    else partitionLoop less (swapAt d i' j') (i'+1) (j'-1) a fuel

/-- `partition_func(data, a, b, pivot)`: returns the data, the new pivot
position, and whether the range was already partitioned. -/
def partitionGo (less : α → α → Bool) (d : List α) (a b pivot : Nat) :
    List α × Nat × Bool :=
  let d0 := swapAt d a pivot
  let i1 := scanLess less d0 (a+1) (b-1) a b
  let j1 := scanGreaterEq less d0 i1 (b-1) a b
  if i1 > j1 then (swapAt d0 j1 a, j1, true)
  else
    match partitionLoop less (swapAt d0 i1 j1) (i1+1) (j1-1) a b with
    | (d2, j2) => (swapAt d2 j2 a, j2, false)

/-- `for i <= j && !data.Less(a, i) { i++ }` in `partitionEqual_func`. -/
def scanNotGreater (less : α → α → Bool) (d : List α) (i j a : Nat) : Nat → Nat
  | 0 => i
  | fuel+1 =>
    if i ≤ j then
      if !(lessAt less d a i) then scanNotGreater less d (i+1) j a fuel else i
    else i

/-- `for i <= j && data.Less(a, j) { j-- }` in `partitionEqual_func`. -/
def scanGreater (less : α → α → Bool) (d : List α) (i j a : Nat) : Nat → Nat
  | 0 => j
  | fuel+1 =>
    if i ≤ j then
      if lessAt less d a j then scanGreater less d i (j-1) a fuel else j
    else j

/-- The main loop of `partitionEqual_func`; returns the data and the
final `i`. -/
def partitionEqualLoop (less : α → α → Bool) (d : List α) (i j a : Nat) :
    Nat → List α × Nat
  | 0 => (d, i)
  | fuel+1 =>
    let i' := scanNotGreater less d i j a (j+2)
    let j' := scanGreater less d i' j a (j+2)
    if i' > j' then (d, i')
    else partitionEqualLoop less (swapAt d i' j') (i'+1) (j'-1) a fuel

/-- `partitionEqual_func(data, a, b, pivot)`. -/
def partitionEqualGo (less : α → α → Bool) (d : List α) (a b pivot : Nat) :
    List α × Nat :=
  partitionEqualLoop less (swapAt d a pivot) (a+1) (b-1) a b

/-- `pdqsort_func(data, a, b, limit)` (`maxInsertion = 12`).  One unit of
fuel is one iteration of the main loop or one recursive call; the
`continue` of the Go loop is the tail call that keeps the current
`wasBalanced` / `wasPartitioned` flags, while a recursive call restarts
both flags at `true`. -/
def pdqsortFuel (less : α → α → Bool) :
    Nat → List α → Nat → Nat → Nat → Bool → Bool → List α
  | 0, d, _, _, _, _, _ => d
  | fuel+1, d, a, b, limit, wasBalanced, wasPartitioned =>
    let length := b - a
    if length ≤ 12 then insertionSortGo less d a b
    else if limit = 0 then heapSortGo less d a b
    else
      match (if !wasBalanced then (breakPatternsGo d a b, limit - 1) else (d, limit)) with
      | (d, limit) =>
        match choosePivotGo less d a b with
        | (pivot0, hint0) =>
          match (if hint0 = .decreasing then
              (reverseRangeGo d a b, (b-1) - (pivot0 - a), SortedHint.increasing)
            else (d, pivot0, hint0)) with
          | (d, pivot, hint) =>
            match (if wasBalanced ∧ wasPartitioned ∧ hint = .increasing then
                partInsertionSortGo less d a b
              else (d, false)) with
            | (d, sortedNow) =>
              if sortedNow then d
              else
                if a > 0 ∧ !(lessAt less d (a-1) pivot) then
                  match partitionEqualGo less d a b pivot with
                  | (d, mid) =>
                    pdqsortFuel less fuel d mid b limit wasBalanced wasPartitioned
                else
                  match partitionGo less d a b pivot with
                  | (d, mid, alreadyPartitioned) =>
                    let leftLen := mid - a
                    let rightLen := b - mid
                    let balanced := decide (min leftLen rightLen ≥ length / 8)
                    if leftLen < rightLen then
                      pdqsortFuel less fuel
                        (pdqsortFuel less fuel d a mid limit true true)
                        (mid+1) b limit balanced alreadyPartitioned
                    else
                      pdqsortFuel less fuel
                        (pdqsortFuel less fuel d (mid+1) b limit true true)
                        a mid limit balanced alreadyPartitioned

/-- `sort.Slice(x, less)` (Go 1.21 `sort/slice.go`):
`pdqsort_func(lessSwap, 0, length, bits.Len(uint(length)))`. -/
def goSortSlice (less : α → α → Bool) (l : List α) : List α :=
  pdqsortFuel less ((l.length + 1) * (l.length + 1) + 64)
    l 0 l.length (goBitsLen l.length) true true

end GoSort


namespace Sched

/-!
Interleaving semantics of the scheduler of `SelectTopIssues` in its
semaphore-bounded form (the `errgroup` + `semaphore.NewWeighted(5)`
iteration): one task per candidate; a task's visible steps are

* `pc = 0`: not yet running; its next step is `sem.Acquire(gctx, 1)`,
  enabled only while fewer than 5 tasks hold a permit;
* `pc = 1`: holding a permit, performing the retried remote evaluation;
* `pc = 2`: about to write its result slot (`results[i] = result` under
  the mutex);
* `pc = 3`: slot written, about to release its permit (the deferred
  `sem.Release(1)` runs when the goroutine returns);
* `pc = 4`: finished.

A schedule is the sequence of task indices chosen by the (adversarial)
Go runtime; `runSched` replays it, refusing steps that the semaphore
blocks or that name a finished or non-existent task.
-/

/-- Scheduler state: per-task program counters, the `results` slice
(slots start unwritten), and the log of slot writes in the order they
happened. -/
structure SState where
  pcs : List Nat
  slots : List (Option GoResult)
  writeLog : List Nat
deriving DecidableEq, Repr

/-- Number of tasks currently holding a permit (past `sem.Acquire`,
before `sem.Release`). -/
def inFlight (pcs : List Nat) : Nat :=
  pcs.countP (fun p => decide (1 ≤ p ∧ p ≤ 3))

/-- `maxConcurrency = 5` (select_top_issue.go, semaphore variant). -/
def maxConcurrency : Nat := 5

/-- Initial state for `n` candidates: `results := make([]model.Result,
len(issues))` allocates one unwritten slot per candidate. -/
def initState (n : Nat) : SState :=
  { pcs := List.replicate n 0, slots := List.replicate n none, writeLog := [] }

/-- One step of task `t` (`slotVal t` is the `model.Result` value that
task `t`'s evaluation produces for its own slot). -/
def stepTask (slotVal : Nat → GoResult) (s : SState) (t : Nat) : Option SState :=
  if s.pcs[t]? = some 0 then
    if inFlight s.pcs < maxConcurrency then
      some { s with pcs := s.pcs.set t 1 }
    else none
  else if s.pcs[t]? = some 1 then some { s with pcs := s.pcs.set t 2 }
  else if s.pcs[t]? = some 2 then
    some { pcs := s.pcs.set t 3, slots := s.slots.set t (some (slotVal t)),
           writeLog := s.writeLog ++ [t] }
  else if s.pcs[t]? = some 3 then some { s with pcs := s.pcs.set t 4 }
  else none

/-- Replay a schedule (a list of task indices). -/
def runSched (slotVal : Nat → GoResult) : SState → List Nat → Option SState
  | s, [] => some s
  | s, t :: rest =>
    match stepTask slotVal s t with
    | none => none
    | some s' => runSched slotVal s' rest

/-- `g.Wait()` has returned: every task has finished. -/
def completed (s : SState) : Prop := ∀ p ∈ s.pcs, p = 4

/-- `completed` is decidable. -/
instance (s : SState) : Decidable (completed s) :=
  inferInstanceAs (Decidable (∀ p ∈ s.pcs, p = 4))

/-- The scheduler invariant: one program counter and one slot per
candidate; the write log only names real slots; a task's slot is
written (by that task, with its own value) exactly when the task has
passed its write step, and exactly once; and never more than
`maxConcurrency` tasks hold a permit. -/
def SchedInv (slotVal : Nat → GoResult) (n : Nat) (s : SState) : Prop :=
  s.pcs.length = n ∧ s.slots.length = n ∧
  (∀ x ∈ s.writeLog, x < n) ∧
  (∀ t p, s.pcs[t]? = some p →
     p ≤ 4 ∧
     s.writeLog.count t = (if 3 ≤ p then 1 else 0) ∧
     s.slots[t]? = some (if 3 ≤ p then some (slotVal t) else none)) ∧
  inFlight s.pcs ≤ maxConcurrency

end Sched

/-- The comparator passed to `sort.Slice` in the aggregation phase:
`convIssues[i].Similarity > convIssues[j].Similarity`. -/
def simGreater (x y : GoResult) : Bool := decide (y.similarity < x.similarity)

/-- The aggregation phase of `SelectTopIssues` (select_top_issue.go
lines 159-181) with `sort.Slice` resolved to the concrete Go 1.21
algorithm: this is the deterministic list that the deployed code
actually returns for a given `results` slice. -/
def aggregateGo (results : List GoResult) : List GoResult :=
  let convIssues := results.filter (fun r => r.id ≠ "")
  if convIssues.length = 0 then []
  else
    let s := GoSort.goSortSlice simGreater convIssues
    if s.length < 5 then s else s.take 5

namespace SlackSearch

/-- One entry of `searchResult.Matches` (slack search API): the fields
`SearchThreads` reads. -/
structure SMatch where
  channelID : String
  timestamp : String
deriving DecidableEq, Repr

/-- A message as returned by the conversation-history / replies API:
the fields `SearchThreads` reads. -/
structure HMsg where
  timestamp : String
  threadTimestamp : String
  user : String
  text : String
deriving DecidableEq, Repr

/-- A `GetConversationReplies` invocation made by `SearchThreads`
(channel, root timestamp, `Limit`). -/
structure ReplyCall where
  channelID : String
  parentTS : String
  limit : Nat
deriving DecidableEq, Repr

/-- The deduplication key of a reply fetch: `channelID ++ ":" ++
parentTS` (the `threadKey` of slack.go). -/
def keyOf (c : ReplyCall) : String := c.channelID ++ ":" ++ c.parentTS

/-- Environment of `(*Slack).SearchThreads` (slack.go): the
`SLACK_CHANNEL` variable and the behaviour of the three remote calls. -/
structure Env where
  slackChannelEnv : String
  searchMessages : String → Except String (List SMatch)
  history : String → String → Except String (List HMsg)
  replies : String → String → Except String (List HMsg)

/-- `strings.TrimPrefix(s, "#")`. -/
def trimHashMark (s : String) : String :=
  if s.startsWith "#" then s.drop 1 else s

/-- The root timestamp of the thread a message belongs to: its
`ThreadTimestamp` when it is part of a thread, otherwise its own
`Timestamp` (slack.go lines 110-116). -/
def resolveParentTS (m : HMsg) : String :=
  if m.threadTimestamp ≠ "" then m.threadTimestamp else m.timestamp

/-- The match loop of `SearchThreads` (slack.go lines 92-144): resolve
each match's thread root, skip roots already in `visitedThreads`, fetch
one reply batch (`Limit: 100`) per fresh root, and accumulate the reply
messages.  Returns the result (or the propagated remote error) together
with the reply fetches that were performed. -/
def processMatches (env : Env) :
    List SMatch → List String → List ThreadMessage → List ReplyCall →
    Except String (List ThreadMessage) × List ReplyCall
  | [], _, acc, calls => (.ok acc, calls)
  | m :: rest, visited, acc, calls =>
    match env.history m.channelID m.timestamp with
    | .error e => (.error ("history: " ++ e), calls)
    | .ok msgs =>
      match msgs with
      | [] => processMatches env rest visited acc calls
      | parentMsg :: _ =>
        let parentTS := resolveParentTS parentMsg
        let threadKey := m.channelID ++ ":" ++ parentTS
        if threadKey ∈ visited then processMatches env rest visited acc calls
        else
          match env.replies m.channelID parentTS with
          | .error e =>
            (.error ("replies: " ++ e), calls ++ [⟨m.channelID, parentTS, 100⟩])
          | .ok reps =>
            processMatches env rest (visited ++ [threadKey])
              (acc ++ reps.map (fun msg =>
                { channelID := m.channelID, timestamp := msg.timestamp,
                  user := msg.user, text := msg.text }))
              (calls ++ [⟨m.channelID, parentTS, 100⟩])

/-- Embedding of `(*Slack).SearchThreads(keyword, channelID)`
(slack.go): prefix the keyword with the `in:#channel` scope when
`SLACK_CHANNEL` is set, run the search, then expand matches with a
fresh (empty) deduplication set. -/
def searchThreads (env : Env) (keyword : String) :
    Except String (List ThreadMessage) × List ReplyCall :=
  let keyword :=
    if env.slackChannelEnv ≠ "" then
      "in:#" ++ trimHashMark env.slackChannelEnv ++ " " ++ keyword
    else keyword
  match env.searchMessages keyword with
  | .error e => (.error ("search: " ++ e), [])
  | .ok found => processMatches env found [] [] []

end SlackSearch

namespace MainCLI

/-- A remote Slack call made by `searchThreads` (main.go). -/
inductive RemoteCall where
  | searchMessages (keyword : String)
  | history (channelID ts : String)
  | replies (channelID parentTS : String) (limit : Nat)
deriving DecidableEq, Repr

/-- A thread message as built by `searchThreads` in main.go (its
`Timestamp` is a `time.Time`, modelled as the rendered string). -/
structure MThreadMessage where
  timestamp : String
  user : String
  text : String
deriving DecidableEq, Repr

/-- Environment of the CLI path in main.go: the `SLACK_API_TOKEN`, the
remote Slack behaviour, the timestamp conversion
(`strconv.ParseFloat` + `time.Unix` rendering, abstracted), the
(`/`-trimmed) `JIRA_ENDPOINT`, and the similarity oracle indexed by
issue position. -/
structure MEnv where
  slackApiToken : String
  searchMessages : String → Except String (List SlackSearch.SMatch)
  history : String → String → Except String (List SlackSearch.HMsg)
  replies : String → String → Except String (List SlackSearch.HMsg)
  tsRender : String → String
  jiraEndpoint : String
  oracle : Nat → Except String ℚ

/-- The match loop of `searchThreads` (main.go lines 365-423), with the
same per-call thread-root deduplication as the infra version and the
remote calls logged. -/
def processMatchesMain (env : MEnv) :
    List SlackSearch.SMatch → List String → List MThreadMessage → List RemoteCall →
    Except String (List MThreadMessage) × List RemoteCall
  | [], _, acc, calls => (.ok acc, calls)
  | m :: rest, visited, acc, calls =>
    let calls := calls ++ [.history m.channelID m.timestamp]
    match env.history m.channelID m.timestamp with
    | .error e => (.error ("history: " ++ e), calls)
    | .ok msgs =>
      match msgs with
      | [] => processMatchesMain env rest visited acc calls
      | parentMsg :: _ =>
        let parentTS := SlackSearch.resolveParentTS parentMsg
        let threadKey := m.channelID ++ ":" ++ parentTS
        if threadKey ∈ visited then processMatchesMain env rest visited acc calls
        else
          let calls := calls ++ [.replies m.channelID parentTS 100]
          match env.replies m.channelID parentTS with
          | .error e => (.error ("replies: " ++ e), calls)
          | .ok reps =>
            processMatchesMain env rest (visited ++ [threadKey])
              (acc ++ reps.map (fun msg =>
                { timestamp := env.tsRender msg.timestamp,
                  user := msg.user, text := msg.text }))
              calls

/-- Embedding of `searchThreads(keyword)` (main.go lines 344-426): when
`SLACK_API_TOKEN` is unset the function returns `nil, nil` — an empty
result, no error, and no remote call; otherwise it searches and expands
the matches. -/
def searchThreadsMain (env : MEnv) (keyword : String) :
    Except String (List MThreadMessage) × List RemoteCall :=
  if env.slackApiToken = "" then (.ok [], [])
  else
    match env.searchMessages keyword with
    | .error e => (.error ("search: " ++ e), [.searchMessages keyword])
    | .ok found =>
      processMatchesMain env found [] [] [.searchMessages keyword]

/-- Embedding of `formattedSearchThreads(keyword)` (main.go lines
328-342). -/
def formattedSearchThreadsMain (env : MEnv) (keyword : String) :
    Except String String × List RemoteCall :=
  match searchThreadsMain env keyword with
  | (.error e, calls) => (.error ("threads: " ++ e), calls)
  | (.ok threads, calls) =>
    (.ok (goJoin "\n" (threads.map (fun t =>
      "\n### 作成日時:" ++ t.timestamp ++ "\n- 作成者:" ++ t.user
        ++ "\n- 内容:" ++ t.text))), calls)

/-- A comment of a v2 `jira.Issue` as read by main.go's `formatIssue`. -/
structure CliComment where
  created : String
  authorDisplayName : String
  body : String
deriving DecidableEq, Repr

/-- The fields of a v2 `jira.Issue` read by main.go. -/
structure CliIssue where
  id : String
  key : String
  summary : String
  description : String
  comments : List CliComment
deriving DecidableEq, Repr

/-- Embedding of `formatIssue` (main.go lines 192-208). -/
def formatIssueCli (issue : CliIssue) : String :=
  "## 概要\n" ++ issue.summary ++ "\n## 詳細\n" ++ issue.description
    ++ "\n## コメントの履歴\n"
    ++ goJoin "\n" (issue.comments.map (fun c =>
      "\n### 作成日時:" ++ c.created ++ "\n- 作成者:" ++ c.authorDisplayName
        ++ "\n- 内容:" ++ c.body))

/-- The `JiraIssue` record built by main.go's `selectTopIssues`. -/
structure CliResult where
  id : String
  summary : String
  description : String
  url : String
  similarity : ℚ
  contentSummary : String
  generatedSummary : String
  slackThread : String
deriving DecidableEq, Repr

/-- One call to the similarity oracle (the prompt's three variable
parts). -/
structure OracleCall where
  query : String
  content : String
  threadText : String
deriving DecidableEq, Repr

/-- The acceptance threshold `0.5` of main.go's `selectTopIssues`. -/
def mainThreshold : ℚ := ⟨1, 2, by decide, by decide⟩

/-- The comparator of main.go's `sort.Slice`. -/
def cliSimGreater (x y : CliResult) : Bool := decide (y.similarity < x.similarity)

/-- The issue loop of `selectTopIssues` (main.go lines 214-274):
sequentially format, fetch threads, score, and keep results scoring at
least 0.5; any remote failure aborts the whole run.  Also logs every
oracle call and every remote Slack call. -/
def selectLoopMain (env : MEnv) (query : String) :
    List (Nat × CliIssue) → List CliResult → List OracleCall → List RemoteCall →
    Except String (List CliResult) × List OracleCall × List RemoteCall
  | [], acc, ocalls, rcalls => (.ok acc, ocalls, rcalls)
  | (i, issue) :: rest, acc, ocalls, rcalls =>
    let contentSummary := formatIssueCli issue
    let jiraURL := env.jiraEndpoint ++ "/browse/" ++ issue.key
    match formattedSearchThreadsMain env jiraURL with
    | (.error e, calls) => (.error ("threads: " ++ e), ocalls, rcalls ++ calls)
    | (.ok slackThreadMessages, calls) =>
      let rcalls := rcalls ++ calls
      let ocalls := ocalls ++ [⟨query, contentSummary, slackThreadMessages⟩]
      match env.oracle i with
      | .error e => (.error ("oracle: " ++ e), ocalls, rcalls)
      | .ok sim =>
        if sim < mainThreshold then
          selectLoopMain env query rest acc ocalls rcalls
        else
          selectLoopMain env query rest
            (acc ++ [{ id := issue.id, summary := issue.summary,
                       description := issue.description, url := jiraURL,
                       similarity := sim, contentSummary := contentSummary,
                       generatedSummary := "",
                       slackThread := slackThreadMessages }])
            ocalls rcalls

/-- Embedding of `selectTopIssues` (main.go lines 211-286): run the
issue loop, sort the kept results by similarity descending
(`sort.Slice`, concrete Go algorithm) and keep at most the first
three. -/
def selectTopIssuesMain (env : MEnv) (query : String) (issues : List CliIssue) :
    Except String (List CliResult) × List OracleCall × List RemoteCall :=
  match selectLoopMain env query issues.enum [] [] [] with
  | (.error e, ocalls, rcalls) => (.error e, ocalls, rcalls)
  | (.ok convIssues, ocalls, rcalls) =>
    let s := GoSort.goSortSlice cliSimGreater convIssues
    ((.ok (if s.length < 3 then s else s.take 3)), ocalls, rcalls)

end MainCLI

/-! ### Concrete inputs used by witnesses and counterexamples -/

/-- `true` iff the string contains a literal `"@"`. -/
def containsAt (s : String) : Bool := s.data.contains '@'

/-- A similarity value `n / 10007` (10007 is prime, so any numerator
below it is coprime to it and the constructor proofs evaluate). -/
def mkSim (n : Nat) (h : Nat.Coprime n 10007 := by decide) : ℚ :=
  ⟨n, 10007, by decide, h⟩

/-- A result slot with only the identifier and similarity populated. -/
def mkR (id : String) (q : ℚ) : GoResult :=
  { emptyResult with id := id, similarity := q }

/-- Thirteen per-candidate result slots; slots 0 and 1 carry the same
similarity `9650/10007`, every slot is non-excluded. -/
def c1Slots : List GoResult :=
  [mkR "I0" (mkSim 9650), mkR "I1" (mkSim 9650), mkR "I2" (mkSim 8824),
   mkR "I3" (mkSim 3203), mkR "I4" (mkSim 3518), mkR "I5" (mkSim 4197),
   mkR "I6" (mkSim 4512), mkR "I7" (mkSim 5191), mkR "I8" (mkSim 5506),
   mkR "I9" (mkSim 6185), mkR "I10" (mkSim 6500), mkR "I11" (mkSim 7179),
   mkR "I12" (mkSim 7494)]

/-- The full sorted permutation of `c1Slots` that Go 1.21's
`sort.Slice` produces for it (the tied slots 0 and 1 come out
reversed). -/
def c1Sorted : List GoResult :=
  [mkR "I1" (mkSim 9650), mkR "I0" (mkSim 9650), mkR "I2" (mkSim 8824),
   mkR "I12" (mkSim 7494), mkR "I11" (mkSim 7179), mkR "I10" (mkSim 6500),
   mkR "I9" (mkSim 6185), mkR "I8" (mkSim 5506), mkR "I7" (mkSim 5191),
   mkR "I6" (mkSim 4512), mkR "I5" (mkSim 4197), mkR "I4" (mkSim 3518),
   mkR "I3" (mkSim 3203)]

/-- The first five entries of `c1Sorted`: what `SelectTopIssues`
returns for `c1Slots`. -/
def c1Out : List GoResult := c1Sorted.take 5

/-- An issue whose summary contains a literal `"@"` (no comments, empty
description). -/
def c8Issue : Issue :=
  { id := "10001", key := "OPS-1",
    fields :=
      { summary := "contact @alice about the outage",
        description := { type := "doc", version := 1, content := [] },
        comments := [] } }

/-- An ADF comment body holding the single text `t` (empty `t` gives a
body that extracts to the empty string). -/
def adfText (t : String) : ADFContent :=
  { type := "doc", version := 1,
    content := [{ type := "paragraph", content := [{ type := "text", text := t }] }] }

/-- An issue with one comment whose body extracts to empty text and one
comment with real text. -/
def c10Issue : Issue :=
  { id := "10002", key := "OPS-2",
    fields :=
      { summary := "s",
        description := adfText "d",
        comments :=
          [{ body := adfText "", created := "2024-01-01", authorDisplayName := "ann" },
           { body := adfText "it works", created := "2024-01-02", authorDisplayName := "bob" }] } }

/-- A simple issue used by witnesses. -/
def wIssue : Issue :=
  { id := "7", key := "W-7",
    fields := { summary := "ws", description := adfText "wd", comments := [] } }

/-- A successful attempt outcome with no threads and similarity
`9650/10007` (above the threshold). -/
def wData : AttemptData :=
  { threads := [], formattedThreads := "", similarity := mkSim 9650 }

/-- An environment whose every attempt succeeds with `wData`. -/
def wEnv : SEnv :=
  { jiraEndpoint := "https://jira.example.com",
    workspaceURL := "https://ws.example.com",
    attempts := fun _ _ => .ok wData }

/-- The result slot the evaluator produces for `wIssue` under `wEnv`. -/
def wSlot : GoResult := buildResult wEnv wIssue wData

/-- An environment whose every attempt fails. -/
def c3Env : SEnv :=
  { jiraEndpoint := "E", workspaceURL := "W",
    attempts := fun _ _ => .error "boom" }

/-- A search match used by the C7 witness. -/
def m7 : SlackSearch.SMatch := { channelID := "C1", timestamp := "111" }

/-- A root message used by the C7 witness (its own timestamp is the
thread root). -/
def hmsg7 : SlackSearch.HMsg :=
  { timestamp := "111", threadTimestamp := "", user := "u", text := "x" }

/-- A thread-search environment in which every match resolves to the
same thread root. -/
def env7 : SlackSearch.Env :=
  { slackChannelEnv := "",
    searchMessages := fun _ => .ok [m7, m7],
    history := fun _ _ => .ok [hmsg7],
    replies := fun _ _ => .ok [hmsg7] }

/-- A CLI environment with no `SLACK_API_TOKEN` and an always-succeeding
oracle. -/
def c9Env : MainCLI.MEnv :=
  { slackApiToken := "",
    searchMessages := fun _ => .error "disabled",
    history := fun _ _ => .error "disabled",
    replies := fun _ _ => .error "disabled",
    tsRender := fun s => s,
    jiraEndpoint := "E",
    oracle := fun _ => .ok (mkSim 9650) }

/-- A v2 issue used by the C9 witness. -/
def c9Issue : MainCLI.CliIssue :=
  { id := "1", key := "K-9", summary := "s", description := "d", comments := [] }

/-- The scheduler state after five of seven tasks acquired a permit. -/
def c5State : Sched.SState :=
  { pcs := [1, 1, 1, 1, 1, 0, 0], slots := List.replicate 7 none, writeLog := [] }

/-- The completed scheduler state of a two-task run. -/
def c4State : Sched.SState :=
  { pcs := [4, 4], slots := [some emptyResult, some emptyResult], writeLog := [0, 1] }

/-- The descending-similarity relation is pointwise decidable. -/
instance : DecidableRel (fun x y : GoResult => y.similarity ≤ x.similarity) :=
  fun x y => inferInstanceAs (Decidable (y.similarity ≤ x.similarity))

/-- `sortedDesc` is decidable. -/
instance (l : List GoResult) : Decidable (sortedDesc l) :=
  List.instDecidablePairwise l

/-- The tie-stability relation is pointwise decidable. -/
instance (results : List GoResult) :
    DecidableRel (fun x y : GoResult =>
      x.similarity = y.similarity → results.indexOf x < results.indexOf y) :=
  fun x y =>
    if hp : x.similarity = y.similarity then
      if hq : results.indexOf x < results.indexOf y then .isTrue (fun _ => hq)
      else .isFalse (fun f => hq (f hp))
    else .isTrue (fun h => absurd h hp)

/-- `stableForTies` is decidable. -/
instance (results out : List GoResult) : Decidable (stableForTies results out) :=
  List.instDecidablePairwise out

/-! ### Helper lemmas -/

theorem noAt_replaceAtSigns (s : String) : '@' ∉ (replaceAtSigns s).data := by
  intro hmem
  rcases List.mem_map.mp hmem with ⟨c, _, hc⟩
  by_cases h : c = '@' <;> simp [h] at hc

theorem noAt_goJoin (sep : String) (l : List String) (hsep : '@' ∉ sep.data)
    (h : ∀ s ∈ l, '@' ∉ s.data) : '@' ∉ (goJoin sep l).data := by
  induction l with
  | nil => intro hx; simp [goJoin] at hx
  | cons x xs ih =>
    cases xs with
    | nil => exact h x (List.mem_cons_self x [])
    | cons y ys =>
      intro hx
      rw [goJoin, String.data_append, String.data_append] at hx
      rcases List.mem_append.mp hx with hx | hx
      · rcases List.mem_append.mp hx with hx | hx
        · exact h x (List.mem_cons_self x _) hx
        · exact hsep hx
      · exact ih (fun s hs => h s (List.mem_cons_of_mem x hs)) hx

theorem noAt_commentsSection (issue : Issue) : '@' ∉ (commentsSection issue).data := by
  apply noAt_goJoin
  · decide
  · intro s hs
    rcases List.mem_map.mp hs with ⟨c, _, hc⟩
    subst hc
    intro hx
    rw [String.data_append] at hx
    rcases List.mem_append.mp hx with hx | hx
    · simp at hx
    · exact noAt_replaceAtSigns c hx

theorem getComments_eq_filter_map (cs : List JiraComment) :
    cs.filterMap (fun c =>
      let commentText := extractTextFromADF c.body
      if commentText = "" then none else some (renderComment c commentText))
    = (cs.filter (fun c => !(extractTextFromADF c.body == ""))).map
        (fun c => renderComment c (extractTextFromADF c.body)) := by
  induction cs with
  | nil => rfl
  | cons c cs ih =>
    by_cases h : extractTextFromADF c.body = "" <;>
      simp [List.filterMap_cons, List.filter_cons, h, ih]

theorem buildResult_fields (env : SEnv) (issue : Issue) (d : AttemptData) :
    (buildResult env issue d).similarity = d.similarity ∧
    (buildResult env issue d).id = issue.id := by
  cases h : d.threads <;> simp [buildResult, h]

theorem evalIssue_fst_cases (env : SEnv) (i : Nat) (issue : Issue) :
    (evalIssue env i issue).1 = emptyResult ∨
    ∃ d, retryGo (env.attempts i) = .ok d ∧ threshold ≤ d.similarity ∧
      (evalIssue env i issue).1 = buildResult env issue d := by
  cases h : retryGo (env.attempts i) with
  | error e => left; simp [evalIssue, h]
  | ok d =>
    by_cases hs : d.similarity < threshold
    · left; simp [evalIssue, h, hs]
    · right; exact ⟨d, rfl, not_lt.mp hs, by simp [evalIssue, h, hs]⟩

theorem mem_resultSlots (env : SEnv) (issues : List Issue) (r : GoResult)
    (h : r ∈ resultSlots env issues) :
    ∃ i issue, issues[i]? = some issue ∧ r = (evalIssue env i issue).1 := by
  rcases List.mem_map.mp h with ⟨p, hp, hr⟩
  exact ⟨p.1, p.2, List.mem_enum_iff_getElem?.mp hp, hr.symm⟩

theorem aggregateRel_mem (results out : List GoResult) (h : aggregateRel results out) :
    ∀ r ∈ out, r ∈ results.filter (fun x => x.id ≠ "") := by
  intro r hr
  simp only [aggregateRel] at h
  by_cases h0 : (results.filter (fun x => x.id ≠ "")).length = 0
  · rw [if_pos h0] at h; subst h; cases hr
  · rw [if_neg h0] at h
    rcases h with ⟨s, ⟨hperm, _⟩, hout⟩
    subst hout
    have hrs : r ∈ s := by
      by_cases h5 : s.length < 5
      · rwa [if_pos h5] at hr
      · rw [if_neg h5] at hr; exact List.take_subset 5 s hr
    exact hperm.mem_iff.mpr hrs

theorem aggregateRel_total (results : List GoResult) : ∃ l, aggregateRel results l := by
  by_cases h0 : (results.filter (fun x => x.id ≠ "")).length = 0
  · exact ⟨[], by simp only [aggregateRel]; rw [if_pos h0]; trivial⟩
  · haveI : IsTotal GoResult (fun x y : GoResult => y.similarity ≤ x.similarity) :=
      ⟨fun a b => le_total b.similarity a.similarity⟩
    haveI : IsTrans GoResult (fun x y : GoResult => y.similarity ≤ x.similarity) :=
      ⟨fun _ _ _ hab hbc => le_trans hbc hab⟩
    refine ⟨(fun s => if s.length < 5 then s else s.take 5)
      ((results.filter (fun x => x.id ≠ "")).insertionSort
        (fun x y : GoResult => y.similarity ≤ x.similarity)), ?_⟩
    simp only [aggregateRel]
    rw [if_neg h0]
    exact ⟨(results.filter (fun x => x.id ≠ "")).insertionSort
        (fun x y : GoResult => y.similarity ≤ x.similarity),
      ⟨(List.perm_insertionSort _ _).symm, List.sorted_insertionSort _ _⟩, rfl⟩

theorem countP_set_add (p : α → Bool) :
    ∀ (l : List α) (i : Nat) (v w : α), l[i]? = some w →
      (l.set i v).countP p + (if p w then 1 else 0)
        = l.countP p + (if p v then 1 else 0) := by
  intro l
  induction l with
  | nil => intro i v w h; cases h
  | cons x xs ih =>
    intro i v w h
    cases i with
    | zero =>
      rw [List.getElem?_cons_zero] at h
      have hw : w = x := by cases h; rfl
      subst hw
      simp only [List.set_cons_zero, List.countP_cons]
      omega
    | succ j =>
      rw [List.getElem?_cons_succ] at h
      simp only [List.set_cons_succ, List.countP_cons]
      have := ih j v w h
      omega

theorem count_range_eq (a n : Nat) :
    (List.range n).count a = if a < n then 1 else 0 := by
  induction n with
  | zero => simp
  | succ m ih =>
    rw [List.range_succ, List.count_append, ih, List.count_cons]
    by_cases h1 : a < m
    · have h2 : a < m + 1 := Nat.lt_succ_of_lt h1
      have h3 : a ≠ m := by omega
      have h4 : m ≠ a := by omega
      simp [h1, h2, h3, h4]
    · by_cases h4 : a = m
      · subst h4
        simp
      · have h5 : ¬ a < m + 1 := by omega
        have h6 : m ≠ a := by omega
        simp [h1, h5, h6, h4]

namespace Sched

theorem schedInv_init (slotVal : Nat → GoResult) (n : Nat) :
    SchedInv slotVal n (initState n) := by
  refine ⟨List.length_replicate n 0, List.length_replicate n none, ?_, ?_, ?_⟩
  · intro x hx; cases hx
  · intro t p hp
    rw [initState] at hp
    simp only [List.getElem?_replicate] at hp
    by_cases ht : t < n
    · rw [if_pos ht] at hp
      have hp0 : p = 0 := by cases hp; rfl
      subst hp0
      refine ⟨by omega, rfl, ?_⟩
      show (List.replicate n (none : Option GoResult))[t]? = some none
      simp [List.getElem?_replicate, ht]
    · rw [if_neg ht] at hp; cases hp
  · have hz : inFlight (List.replicate n 0) = 0 := by
      apply List.countP_eq_zero.mpr
      intro a ha
      have : a = 0 := List.eq_of_mem_replicate ha
      subst this
      decide
    rw [initState]
    simp only [hz]
    exact Nat.zero_le _

theorem inFlight_set (pcs : List Nat) (t v w : Nat) (h : pcs[t]? = some w) :
    inFlight (pcs.set t v) + (if 1 ≤ w ∧ w ≤ 3 then 1 else 0)
      = inFlight pcs + (if 1 ≤ v ∧ v ≤ 3 then 1 else 0) := by
  have := countP_set_add (fun p => decide (1 ≤ p ∧ p ≤ 3)) pcs t v w h
  simp only [inFlight]
  simpa using this

theorem pcsClause_set (slotVal : Nat → GoResult) (s : SState) (t pOld pNew : Nat)
    (hp : s.pcs[t]? = some pOld)
    (hcount : s.writeLog.count t = (if 3 ≤ pOld then 1 else 0))
    (hsl : s.slots[t]? = some (if 3 ≤ pOld then some (slotVal t) else none))
    (hcv : (if 3 ≤ pNew then (1 : Nat) else 0) = (if 3 ≤ pOld then 1 else 0))
    (hsv : (if 3 ≤ pNew then some (slotVal t) else none)
       = (if 3 ≤ pOld then some (slotVal t) else none))
    (hle : pNew ≤ 4)
    (hslot : ∀ u q, s.pcs[u]? = some q →
       q ≤ 4 ∧ s.writeLog.count u = (if 3 ≤ q then 1 else 0) ∧
       s.slots[u]? = some (if 3 ≤ q then some (slotVal u) else none)) :
    ∀ u q, (s.pcs.set t pNew)[u]? = some q →
       q ≤ 4 ∧ s.writeLog.count u = (if 3 ≤ q then 1 else 0) ∧
       s.slots[u]? = some (if 3 ≤ q then some (slotVal u) else none) := by
  intro u q hq
  by_cases hut : u = t
  · subst hut
    have htlen : u < s.pcs.length := (List.getElem?_eq_some.mp hp).1
    rw [List.getElem?_set_self htlen] at hq
    have hqv : pNew = q := Option.some.inj hq
    subst hqv
    exact ⟨hle, by rw [hcv]; exact hcount, by rw [hsv]; exact hsl⟩
  · rw [List.getElem?_set_ne (fun hh => hut hh.symm)] at hq
    exact hslot u q hq

theorem schedInv_step (slotVal : Nat → GoResult) (n : Nat) (s s1 : SState) (t : Nat)
    (hstep : stepTask slotVal s t = some s1)
    (hinv : SchedInv slotVal n s) : SchedInv slotVal n s1 := by
  rcases hinv with ⟨hlp, hls, hwl, hslot, hif⟩
  rw [stepTask] at hstep
  by_cases hp0 : s.pcs[t]? = some 0
  · rw [if_pos hp0] at hstep
    by_cases hgate : inFlight s.pcs < maxConcurrency
    · rw [if_pos hgate] at hstep
      have hs1 : s1 = { s with pcs := s.pcs.set t 1 } := by cases hstep; rfl
      subst hs1
      have hclause := hslot t 0 hp0
      refine ⟨by simpa using hlp, hls, hwl, ?_, ?_⟩
      · exact pcsClause_set slotVal s t 0 1 hp0 hclause.2.1 hclause.2.2 (by norm_num)
          (by norm_num) (by omega) hslot
      · have hset := inFlight_set s.pcs t 1 0 hp0
        have e0 : (if 1 ≤ 0 ∧ 0 ≤ 3 then 1 else 0) = 0 := by norm_num
        have e1 : (if 1 ≤ 1 ∧ 1 ≤ 3 then 1 else 0) = 1 := by norm_num
        rw [e0, e1] at hset
        show inFlight (s.pcs.set t 1) ≤ maxConcurrency
        omega
    · rw [if_neg hgate] at hstep; cases hstep
  · rw [if_neg hp0] at hstep
    by_cases hp1 : s.pcs[t]? = some 1
    · rw [if_pos hp1] at hstep
      have hs1 : s1 = { s with pcs := s.pcs.set t 2 } := by cases hstep; rfl
      subst hs1
      have hclause := hslot t 1 hp1
      refine ⟨by simpa using hlp, hls, hwl, ?_, ?_⟩
      · exact pcsClause_set slotVal s t 1 2 hp1 hclause.2.1 hclause.2.2 (by norm_num)
          (by norm_num) (by omega) hslot
      · have hset := inFlight_set s.pcs t 2 1 hp1
        have e1 : (if 1 ≤ 1 ∧ 1 ≤ 3 then 1 else 0) = 1 := by norm_num
        have e2 : (if 1 ≤ 2 ∧ 2 ≤ 3 then 1 else 0) = 1 := by norm_num
        rw [e1, e2] at hset
        show inFlight (s.pcs.set t 2) ≤ maxConcurrency
        omega
    · rw [if_neg hp1] at hstep
      by_cases hp2 : s.pcs[t]? = some 2
      · rw [if_pos hp2] at hstep
        have hs1 : s1 = { s with pcs := s.pcs.set t 3, slots := s.slots.set t (some (slotVal t)), writeLog := s.writeLog ++ [t] } := by cases hstep; rfl
        subst hs1
        have hclause := hslot t 2 hp2
        have htlen : t < s.pcs.length := (List.getElem?_eq_some.mp hp2).1
        have htn : t < n := by omega
        have htls : t < s.slots.length := by omega
        refine ⟨by simpa using hlp, by simpa using hls, ?_, ?_, ?_⟩
        · intro x hx
          rcases List.mem_append.mp hx with hx | hx
          · exact hwl x hx
          · have hxt : x = t := List.mem_singleton.mp hx
            subst hxt; exact htn
        · intro u q hq
          by_cases hut : u = t
          · subst hut
            rw [List.getElem?_set_self htlen] at hq
            have hqv : q = 3 := by cases hq; rfl
            subst hqv
            have hcount : s.writeLog.count u = 0 := by simpa using hclause.2.1
            refine ⟨by omega, ?_, ?_⟩
            · rw [List.count_append, hcount, List.count_cons]
              simp
            · rw [List.getElem?_set_self htls]
              simp
          · rw [List.getElem?_set_ne (fun hh => hut hh.symm)] at hq
            have hold := hslot u q hq
            refine ⟨hold.1, ?_, ?_⟩
            · rw [List.count_append, hold.2.1, List.count_cons]
              have hne : t ≠ u := fun hh => hut hh.symm
              simp [hne]
            · rw [List.getElem?_set_ne (fun hh => hut hh.symm)]
              exact hold.2.2
        · have hset := inFlight_set s.pcs t 3 2 hp2
          have e2 : (if 1 ≤ 2 ∧ 2 ≤ 3 then 1 else 0) = 1 := by norm_num
          have e3 : (if 1 ≤ 3 ∧ 3 ≤ 3 then 1 else 0) = 1 := by norm_num
          rw [e2, e3] at hset
          show inFlight (s.pcs.set t 3) ≤ maxConcurrency
          omega
      · rw [if_neg hp2] at hstep
        by_cases hp3 : s.pcs[t]? = some 3
        · rw [if_pos hp3] at hstep
          have hs1 : s1 = { s with pcs := s.pcs.set t 4 } := by cases hstep; rfl
          subst hs1
          have hclause := hslot t 3 hp3
          refine ⟨by simpa using hlp, hls, hwl, ?_, ?_⟩
          · exact pcsClause_set slotVal s t 3 4 hp3 hclause.2.1 hclause.2.2 (by norm_num)
              (by norm_num) (by omega) hslot
          · have hset := inFlight_set s.pcs t 4 3 hp3
            have e3 : (if 1 ≤ 3 ∧ 3 ≤ 3 then 1 else 0) = 1 := by norm_num
            have e4 : (if 1 ≤ 4 ∧ 4 ≤ 3 then 1 else 0) = 0 := by norm_num
            rw [e3, e4] at hset
            show inFlight (s.pcs.set t 4) ≤ maxConcurrency
            omega
        · rw [if_neg hp3] at hstep; cases hstep

theorem schedInv_run (slotVal : Nat → GoResult) (n : Nat) :
    ∀ (sch : List Nat) (s s1 : SState),
      runSched slotVal s sch = some s1 → SchedInv slotVal n s →
      SchedInv slotVal n s1 := by
  intro sch
  induction sch with
  | nil =>
    intro s s1 h hinv
    have hss : some s = some s1 := h
    cases hss; exact hinv
  | cons t rest ih =>
    intro s s1 h hinv
    rw [runSched] at h
    cases hstep : stepTask slotVal s t with
    | none => rw [hstep] at h; cases h
    | some s2 =>
      rw [hstep] at h
      exact ih s2 s1 h (schedInv_step slotVal n s s2 t hstep hinv)

end Sched

/-- **C5.**  In every state the scheduler can reach from the initial
state (under any schedule), at most `maxConcurrency = 5` tasks are past
the permit-acquisition step: the semaphore admits an acquire only while
fewer than five permits are held, and each task releases its permit at
the end of its program. -/
theorem concurrency_bounded (slotVal : Nat → GoResult) (n : Nat) (sch : List Nat)
    (s1 : Sched.SState)
    (hrun : Sched.runSched slotVal (Sched.initState n) sch = some s1) :
    Sched.inFlight s1.pcs ≤ Sched.maxConcurrency ∧ Sched.maxConcurrency = 5 := by
  have hinv := Sched.schedInv_run slotVal n sch (Sched.initState n) s1 hrun
      (Sched.schedInv_init slotVal n)
  exact ⟨hinv.2.2.2.2, rfl⟩

/-- **C5, witness**: seven tasks, schedule acquiring five permits. -/
theorem concurrency_bounded_witness :
    Sched.inFlight c5State.pcs ≤ Sched.maxConcurrency ∧ Sched.maxConcurrency = 5 :=
  concurrency_bounded (fun _ => emptyResult) 7 [0, 1, 2, 3, 4] c5State (by decide)

/-- **C4.**  For `n` candidates the scheduler allocates exactly `n`
result slots; in every completed run each slot `j < n` was written
exactly once (the write log is a permutation of `0, ..., n-1`, and the
writer of slot `j` is task `j` itself, which writes its own value
`slotVal j`), and the final `results` slice holds every task's value. -/
theorem slots_written_exactly_once (slotVal : Nat → GoResult) (n : Nat)
    (sch : List Nat) (s1 : Sched.SState)
    (hrun : Sched.runSched slotVal (Sched.initState n) sch = some s1)
    (hdone : Sched.completed s1) :
    s1.slots.length = n ∧
    s1.slots = (List.range n).map (fun i => some (slotVal i)) ∧
    s1.writeLog.Perm (List.range n) ∧
    (∀ j, j < n → s1.writeLog.count j = 1) := by
  have hinv := Sched.schedInv_run slotVal n sch (Sched.initState n) s1 hrun
      (Sched.schedInv_init slotVal n)
  rcases hinv with ⟨hlp, hls, hwl, hslot, _⟩
  have hpc4 : ∀ u, u < n → s1.pcs[u]? = some 4 := by
    intro u hu
    have htl : u < s1.pcs.length := by omega
    have hsome : s1.pcs[u]? = some (s1.pcs.get ⟨u, htl⟩) := List.getElem?_eq_getElem htl
    have hmem : s1.pcs.get ⟨u, htl⟩ ∈ s1.pcs := List.getElem_mem htl
    rw [hsome, hdone _ hmem]
  have hcount : ∀ j, j < n → s1.writeLog.count j = 1 := by
    intro j hj
    have h4 := hslot j 4 (hpc4 j hj)
    simpa using h4.2.1
  refine ⟨hls, ?_, ?_, hcount⟩
  · apply List.ext_getElem?
    intro i
    by_cases hi : i < n
    · have h4 := hslot i 4 (hpc4 i hi)
      have hl4 : s1.slots[i]? = some (some (slotVal i)) := by simpa using h4.2.2
      rw [hl4, List.getElem?_map, List.getElem?_range hi]
      rfl
    · have h1 : s1.slots[i]? = none := List.getElem?_eq_none (by omega)
      have h2 : ((List.range n).map (fun i => some (slotVal i)))[i]? = none := by
        apply List.getElem?_eq_none
        rw [List.length_map, List.length_range]
        omega
      rw [h1, h2]
  · rw [List.perm_iff_count]
    intro a
    rw [count_range_eq]
    by_cases ha : a < n
    · rw [if_pos ha]
      exact hcount a ha
    · rw [if_neg ha, List.count_eq_zero]
      intro hmem
      exact ha (hwl a hmem)

/-- **C4, witness**: two tasks run to completion sequentially. -/
theorem slots_written_exactly_once_witness :
    c4State.slots.length = 2 ∧
    c4State.slots = (List.range 2).map (fun _ => some emptyResult) ∧
    c4State.writeLog.Perm (List.range 2) ∧
    (∀ j, j < 2 → c4State.writeLog.count j = 1) :=
  slots_written_exactly_once (fun _ => emptyResult) 2 [0, 0, 0, 0, 1, 1, 1, 1] c4State
    (by decide) (by decide)

namespace SlackSearch

theorem processMatches_calls_inv (env : Env) :
    ∀ (ms : List SMatch) (visited : List String) (acc : List ThreadMessage)
      (calls : List ReplyCall),
      (calls.map keyOf).Nodup →
      (∀ k ∈ calls.map keyOf, k ∈ visited) →
      (∀ c ∈ calls, c.limit = 100) →
      ((processMatches env ms visited acc calls).2.map keyOf).Nodup ∧
      (∀ c ∈ (processMatches env ms visited acc calls).2, c.limit = 100) := by
  intro ms
  induction ms with
  | nil =>
    intro visited acc calls hnd _ hlim
    exact ⟨hnd, hlim⟩
  | cons m rest ih =>
    intro visited acc calls hnd hsub hlim
    cases hh : env.history m.channelID m.timestamp with
    | error e =>
      simp only [processMatches, hh]
      exact ⟨hnd, hlim⟩
    | ok msgs =>
      cases msgs with
      | nil =>
        simp only [processMatches, hh]
        exact ih visited acc calls hnd hsub hlim
      | cons parentMsg tl =>
        by_cases hv : (m.channelID ++ ":" ++ resolveParentTS parentMsg) ∈ visited
        · simp only [processMatches, hh, if_pos hv]
          exact ih visited acc calls hnd hsub hlim
        · have hkeys : ((calls ++ [(⟨m.channelID, resolveParentTS parentMsg, 100⟩ : ReplyCall)]).map keyOf).Nodup := by
            rw [List.map_append, List.nodup_append]
            refine ⟨hnd, List.nodup_singleton _, ?_⟩
            intro k hk hk1
            have hk2 : k = m.channelID ++ ":" ++ resolveParentTS parentMsg := by
              simpa [keyOf] using hk1
            subst hk2
            exact hv (hsub _ hk)
          have hlims : ∀ c ∈ calls ++ [(⟨m.channelID, resolveParentTS parentMsg, 100⟩ : ReplyCall)],
              c.limit = 100 := by
            intro c hc
            rcases List.mem_append.mp hc with hc | hc
            · exact hlim c hc
            · rw [List.mem_singleton.mp hc]
          cases hr : env.replies m.channelID (resolveParentTS parentMsg) with
          | error e =>
            simp only [processMatches, hh, if_neg hv, hr]
            exact ⟨hkeys, hlims⟩
          | ok reps =>
            simp only [processMatches, hh, if_neg hv, hr]
            apply ih
            · exact hkeys
            · intro k hk
              rcases List.mem_map.mp hk with ⟨c, hc, hck⟩
              rcases List.mem_append.mp hc with hc | hc
              · exact List.mem_append.mpr (Or.inl (hsub k (hck ▸ List.mem_map_of_mem keyOf hc)))
              · have : c = ⟨m.channelID, resolveParentTS parentMsg, 100⟩ :=
                  List.mem_singleton.mp hc
                subst this
                subst hck
                exact List.mem_append.mpr (Or.inr (by simp [keyOf]))
            · exact hlims

end SlackSearch

/-- **C7.**  Thread expansion in `SearchThreads` is deduplicated per
call by the `(channel, root-timestamp)` key: the reply fetches performed
for one search carry pairwise distinct keys (at most one reply batch per
distinct root), every reply fetch uses `Limit: 100`, and a match whose
root key is already in the visited set is skipped without any reply
fetch — only the first match resolving to a root is expanded.  The
visited set starts empty on every call (`searchThreads` passes `[]`). -/
theorem searchThreads_dedup (env : SlackSearch.Env) (keyword : String) :
    (((SlackSearch.searchThreads env keyword).2.map SlackSearch.keyOf).Nodup) ∧
    (∀ c ∈ (SlackSearch.searchThreads env keyword).2, c.limit = 100) ∧
    (∀ (m : SlackSearch.SMatch) (rest : List SlackSearch.SMatch)
       (visited : List String) (acc : List ThreadMessage)
       (calls : List SlackSearch.ReplyCall) (parentMsg : SlackSearch.HMsg)
       (tl : List SlackSearch.HMsg),
       env.history m.channelID m.timestamp = .ok (parentMsg :: tl) →
       (m.channelID ++ ":" ++ SlackSearch.resolveParentTS parentMsg) ∈ visited →
       SlackSearch.processMatches env (m :: rest) visited acc calls
         = SlackSearch.processMatches env rest visited acc calls) := by
  refine ⟨?_, ?_, ?_⟩
  · rw [SlackSearch.searchThreads]
    cases hs : env.searchMessages
        (if env.slackChannelEnv ≠ "" then
          "in:#" ++ SlackSearch.trimHashMark env.slackChannelEnv ++ " " ++ keyword
         else keyword) with
    | error e => simp
    | ok found =>
      simp only
      exact (SlackSearch.processMatches_calls_inv env found [] [] []
        List.nodup_nil (by intro k hk; cases hk) (by intro c hc; cases hc)).1
  · rw [SlackSearch.searchThreads]
    cases hs : env.searchMessages
        (if env.slackChannelEnv ≠ "" then
          "in:#" ++ SlackSearch.trimHashMark env.slackChannelEnv ++ " " ++ keyword
         else keyword) with
    | error e => simp
    | ok found =>
      simp only
      exact (SlackSearch.processMatches_calls_inv env found [] [] []
        List.nodup_nil (by intro k hk; cases hk) (by intro c hc; cases hc)).2
  · intro m rest visited acc calls parentMsg tl hh hv
    simp only [SlackSearch.processMatches, hh, if_pos hv]

/-- **C7, witness**: two matches resolving to the same root under
`env7`; the second match is skipped. -/
theorem searchThreads_dedup_witness :
    (((SlackSearch.searchThreads env7 "k").2.map SlackSearch.keyOf).Nodup) ∧
    (∀ c ∈ (SlackSearch.searchThreads env7 "k").2, c.limit = 100) ∧
    (SlackSearch.processMatches env7 [m7] ["C1:111"] [] []
       = SlackSearch.processMatches env7 [] ["C1:111"] [] []) := by
  have h := searchThreads_dedup env7 "k"
  exact ⟨h.1, h.2.1, h.2.2 m7 [] ["C1:111"] [] [] hmsg7 [] rfl (by decide)⟩

namespace MainCLI

theorem selectLoopMain_disabled (env : MEnv) (h : env.slackApiToken = "")
    (query : String) :
    ∀ (ps : List (Nat × CliIssue)) (acc : List CliResult)
      (ocalls : List OracleCall) (rcalls : List RemoteCall),
      (selectLoopMain env query ps acc ocalls rcalls).2.2 = rcalls ∧
      (∀ c ∈ (selectLoopMain env query ps acc ocalls rcalls).2.1,
         c ∈ ocalls ∨ c.threadText = "") ∧
      ((∀ p ∈ ps, ∃ q, env.oracle p.1 = .ok q) →
        (selectLoopMain env query ps acc ocalls rcalls).2.1.length
          = ocalls.length + ps.length) := by
  intro ps
  induction ps with
  | nil =>
    intro acc ocalls rcalls
    exact ⟨rfl, fun c hc => Or.inl hc, fun _ => rfl⟩
  | cons p rest ih =>
    intro acc ocalls rcalls
    obtain ⟨i, issue⟩ := p
    have hsearch : searchThreadsMain env (env.jiraEndpoint ++ "/browse/" ++ issue.key)
        = (.ok [], []) := by
      rw [searchThreadsMain, if_pos h]
    have hfmt : formattedSearchThreadsMain env (env.jiraEndpoint ++ "/browse/" ++ issue.key)
        = (.ok "", []) := by
      rw [formattedSearchThreadsMain, hsearch]
      rfl
    cases ho : env.oracle i with
    | error e =>
      simp only [selectLoopMain, hfmt, ho]
      refine ⟨by simp, ?_, ?_⟩
      · intro c hc
        rcases List.mem_append.mp hc with hc | hc
        · exact Or.inl hc
        · exact Or.inr (by rw [List.mem_singleton.mp hc])
      · intro hall
        rcases hall (i, issue) (List.mem_cons_self _ _) with ⟨q, hq⟩
        rw [ho] at hq
        cases hq
    | ok sim =>
      by_cases hlt : sim < mainThreshold
      · simp only [selectLoopMain, hfmt, ho, if_pos hlt]
        have hrec := ih acc (ocalls ++ [⟨query, formatIssueCli issue, ""⟩])
          (rcalls ++ [])
        refine ⟨by simpa using hrec.1, ?_, ?_⟩
        · intro c hc
          rcases hrec.2.1 c hc with hc1 | hc1
          · rcases List.mem_append.mp hc1 with hc2 | hc2
            · exact Or.inl hc2
            · exact Or.inr (by rw [List.mem_singleton.mp hc2])
          · exact Or.inr hc1
        · intro hall
          rw [hrec.2.2 (fun p hp => hall p (List.mem_cons_of_mem _ hp))]
          simp only [List.length_append, List.length_cons, List.length_nil]
          omega
      · simp only [selectLoopMain, hfmt, ho, if_neg hlt]
        have hrec := ih (acc ++ [{ id := issue.id, summary := issue.summary, description := issue.description, url := env.jiraEndpoint ++ "/browse/" ++ issue.key, similarity := sim, contentSummary := formatIssueCli issue, generatedSummary := "", slackThread := "" }]) (ocalls ++ [⟨query, formatIssueCli issue, ""⟩]) (rcalls ++ [])
        refine ⟨by simpa using hrec.1, ?_, ?_⟩
        · intro c hc
          rcases hrec.2.1 c hc with hc1 | hc1
          · rcases List.mem_append.mp hc1 with hc2 | hc2
            · exact Or.inl hc2
            · exact Or.inr (by rw [List.mem_singleton.mp hc2])
          · exact Or.inr hc1
        · intro hall
          rw [hrec.2.2 (fun p hp => hall p (List.mem_cons_of_mem _ hp))]
          simp only [List.length_append, List.length_cons, List.length_nil]
          omega

theorem selectTopIssuesMain_snd (env : MEnv) (query : String)
    (issues : List CliIssue) :
    (selectTopIssuesMain env query issues).2
      = (selectLoopMain env query issues.enum [] [] []).2 := by
  rw [selectTopIssuesMain]
  cases hsel : selectLoopMain env query issues.enum [] [] [] with
  | mk res rest =>
    cases res with
    | error e => rfl
    | ok conv => rfl

end MainCLI

/-- **C9.**  With the thread-search credential absent
(`SLACK_API_TOKEN = ""`), `searchThreads` returns `nil, nil` — an empty
result set, no error, and no remote Slack call; the formatted thread
context is the empty string; and `selectTopIssues` still proceeds to
score: it performs no remote Slack call at all, every oracle call it
makes carries the empty thread context, and (when the oracle itself does
not fail) exactly one oracle call is made per candidate. -/
theorem threadFinder_disabled (env : MainCLI.MEnv) (h : env.slackApiToken = "") :
    (∀ kw, MainCLI.searchThreadsMain env kw = (.ok [], [])) ∧
    (∀ kw, MainCLI.formattedSearchThreadsMain env kw = (.ok "", [])) ∧
    (∀ query issues,
       (MainCLI.selectTopIssuesMain env query issues).2.2 = [] ∧
       (∀ c ∈ (MainCLI.selectTopIssuesMain env query issues).2.1, c.threadText = "") ∧
       ((∀ p ∈ issues.enum, ∃ q, env.oracle p.1 = .ok q) →
         (MainCLI.selectTopIssuesMain env query issues).2.1.length = issues.length)) := by
  have hsearch : ∀ kw, MainCLI.searchThreadsMain env kw = (.ok [], []) := by
    intro kw
    rw [MainCLI.searchThreadsMain, if_pos h]
  have hfmt : ∀ kw, MainCLI.formattedSearchThreadsMain env kw = (.ok "", []) := by
    intro kw
    rw [MainCLI.formattedSearchThreadsMain, hsearch kw]
    rfl
  refine ⟨hsearch, hfmt, ?_⟩
  intro query issues
  have hloop := MainCLI.selectLoopMain_disabled env h query issues.enum [] [] []
  have hsnd := MainCLI.selectTopIssuesMain_snd env query issues
  refine ⟨?_, ?_, ?_⟩
  · rw [hsnd]
    exact hloop.1
  · intro c hc
    rw [hsnd] at hc
    rcases hloop.2.1 c hc with hc1 | hc1
    · cases hc1
    · exact hc1
  · intro hall
    rw [hsnd]
    rw [hloop.2.2 hall]
    simp [List.enum_length]

/-- **C9, witness**: the concrete disabled environment `c9Env` with one
candidate. -/
theorem threadFinder_disabled_witness :
    MainCLI.searchThreadsMain c9Env "k" = (.ok [], []) ∧
    MainCLI.formattedSearchThreadsMain c9Env "k" = (.ok "", []) ∧
    (MainCLI.selectTopIssuesMain c9Env "q" [c9Issue]).2.2 = [] ∧
    (∀ c ∈ (MainCLI.selectTopIssuesMain c9Env "q" [c9Issue]).2.1, c.threadText = "") ∧
    (MainCLI.selectTopIssuesMain c9Env "q" [c9Issue]).2.1.length = 1 := by
  have h := threadFinder_disabled c9Env rfl
  have h3 := h.2.2 "q" [c9Issue]
  refine ⟨h.1 "k", h.2.1 "k", h3.1, h3.2.1, ?_⟩
  have hl := h3.2.2 (fun p _ => ⟨mkSim 9650, rfl⟩)
  simpa using hl

theorem c1_aggregateRel : aggregateRel c1Slots c1Out :=
  ⟨c1Sorted, ⟨by decide, by decide⟩, rfl⟩

/-! ### Claim theorems -/

/-- **C8, counterexample.**  The claim says the formatter's output
contains no literal `"@"` originating from the candidate's summary,
description or comments.  For the concrete issue whose summary is
`"contact @alice about the outage"`, `formatIssue` passes the summary
through verbatim, so its output does contain a literal `"@"`. -/
theorem formatIssue_at_in_summary_cex : containsAt (formatIssue c8Issue) = true := by decide

/-- **C8, amended.**  `formatIssue` neutralizes `"@"` only in the
comment history: the comments section it builds contains no `"@"` at
all, the comments are rendered in the order `GetComments` supplies them
(each given a `### ` heading and joined with blank lines), and the
summary and the extracted description are inserted verbatim around that
section. -/
theorem formatIssue_comments_neutralized (issue : Issue) :
    containsAt (commentsSection issue) = false ∧
    commentsSection issue
      = goJoin "\n\n" ((getComments issue).map (fun comment => "### " ++ replaceAtSigns comment)) ∧
    formatIssue issue
      = "## 概要\n" ++ issue.fields.summary ++ "\n## 詳細\n" ++ getDescription issue
          ++ "\n## コメントの履歴\n" ++ commentsSection issue := by
  refine ⟨?_, rfl, rfl⟩
  show (commentsSection issue).data.elem '@' = false
  rw [List.elem_eq_mem, decide_eq_false_iff_not]
  exact noAt_commentsSection issue

/-- **C1, counterexample.**  The claim asserts that the list returned by
`SelectTopIssues` is stable for ties.  For the thirteen non-excluded
slots `c1Slots` (slots 0 and 1 tied at `9650/10007`), the Go 1.21
`sort.Slice` algorithm the code calls returns `c1Out`, in which the tied
results appear in the opposite order of their slots — and `c1Out` is a
conforming outcome of the aggregation (`aggregateRel`), so the claimed
stability does not hold. -/
theorem selectTop_stability_cex :
    aggregateGo c1Slots = c1Out ∧
    aggregateRel c1Slots c1Out ∧
    sortedDesc c1Out ∧
    ¬ stableForTies c1Slots c1Out := by
  refine ⟨by decide!, c1_aggregateRel, by decide, by decide⟩

/-- **C1, amended.**  Every outcome of the aggregation phase of
`SelectTopIssues` contains only non-excluded result slots, is sorted by
similarity in descending order, and has length at most
`min 5 (number of non-excluded slots)`; the relative order of results
with equal scores is not guaranteed. -/
theorem selectTop_aggregation_props (results out : List GoResult)
    (h : aggregateRel results out) :
    (∀ r ∈ out, r ∈ results ∧ r.id ≠ "") ∧
    sortedDesc out ∧
    out.length ≤ min 5 (results.filter (fun x => x.id ≠ "")).length := by
  refine ⟨?_, ?_, ?_⟩
  · intro r hr
    have hf := List.mem_filter.mp (aggregateRel_mem results out h r hr)
    exact ⟨hf.1, by simpa using hf.2⟩
  · simp only [aggregateRel] at h
    by_cases h0 : (results.filter (fun x => x.id ≠ "")).length = 0
    · rw [if_pos h0] at h; subst h; exact List.Pairwise.nil
    · rw [if_neg h0] at h
      rcases h with ⟨s, ⟨_, hsorted⟩, hout⟩
      subst hout
      by_cases h5 : s.length < 5
      · rwa [if_pos h5]
      · rw [if_neg h5]
        exact hsorted.sublist (List.take_sublist 5 s)
  · simp only [aggregateRel] at h
    by_cases h0 : (results.filter (fun x => x.id ≠ "")).length = 0
    · rw [if_pos h0] at h; subst h; simp
    · rw [if_neg h0] at h
      rcases h with ⟨s, ⟨hperm, _⟩, hout⟩
      subst hout
      have hlen : s.length = (results.filter (fun x => x.id ≠ "")).length :=
        hperm.length_eq.symm
      by_cases h5 : s.length < 5
      · rw [if_pos h5]
        exact le_min (le_of_lt h5) (le_of_eq hlen)
      · rw [if_neg h5, List.length_take, hlen]

/-- **C1, witness** for the amended theorem, at the concrete slice
`c1Slots` with outcome `c1Out`. -/
theorem selectTop_aggregation_props_witness :
    (∀ r ∈ c1Out, r ∈ c1Slots ∧ r.id ≠ "") ∧
    sortedDesc c1Out ∧
    c1Out.length ≤ min 5 (c1Slots.filter (fun x => x.id ≠ "")).length :=
  selectTop_aggregation_props c1Slots c1Out c1_aggregateRel

/-- **C2.**  Per slot: a successfully scored candidate whose score is
below `0.3` gets the empty marker written into its slot (its identifier
field is the unset `""` of `emptyResult`); a slot that is not the empty
marker was built from a score of at least `0.3` and carries the
candidate identifier; and in the final returned list every element is a
non-excluded slot with a non-empty identifier and score at least
`0.3`. -/
theorem evaluator_threshold_props (env : SEnv) (issues : List Issue) (l : List GoResult)
    (hrun : runSelectTopIssues env issues (.ok l)) :
    (∀ i issue d, retryGo (env.attempts i) = .ok d → d.similarity < threshold →
        (evalIssue env i issue).1 = emptyResult) ∧
    (∀ i issue, (evalIssue env i issue).1 ≠ emptyResult →
        (evalIssue env i issue).1.id = issue.id ∧
        threshold ≤ (evalIssue env i issue).1.similarity) ∧
    emptyResult.id = "" ∧
    (∀ r ∈ l, r ∈ resultSlots env issues ∧ r.id ≠ "" ∧ threshold ≤ r.similarity) := by
  have hslot : ∀ i issue, (evalIssue env i issue).1 ≠ emptyResult →
      (evalIssue env i issue).1.id = issue.id ∧
      threshold ≤ (evalIssue env i issue).1.similarity := by
    intro i issue hne
    rcases evalIssue_fst_cases env i issue with hc | ⟨d, _, hge, heq⟩
    · exact absurd hc hne
    · rw [heq]
      have hb := buildResult_fields env issue d
      exact ⟨hb.2, hb.1 ▸ hge⟩
  refine ⟨?_, hslot, rfl, ?_⟩
  · intro i issue d hok hlt
    simp [evalIssue, hok, hlt]
  · intro r hr
    cases issues with
    | nil =>
      have hl : (Except.ok l : Except String (List GoResult)) = .ok [] := hrun
      cases hl; cases hr
    | cons a as =>
      have h1 : ∃ l1, aggregateRel (resultSlots env (a :: as)) l1 ∧
          (Except.ok l : Except String (List GoResult)) = .ok l1 := hrun
      rcases h1 with ⟨l1, hagg, heq⟩
      cases heq
      have hf := List.mem_filter.mp (aggregateRel_mem _ _ hagg r hr)
      have hid : r.id ≠ "" := by simpa using hf.2
      refine ⟨hf.1, hid, ?_⟩
      rcases mem_resultSlots env _ r hf.1 with ⟨i, issue, _, hrEq⟩
      have hne : (evalIssue env i issue).1 ≠ emptyResult := by
        intro hcon
        rw [← hrEq] at hcon
        rw [hcon] at hid
        exact hid rfl
      have := (hslot i issue hne).2
      rwa [← hrEq] at this

/-- **C2, witness**: the concrete single-candidate run under `wEnv`
(every attempt scores `9650/10007`). -/
theorem evaluator_threshold_props_witness :
    (∀ i issue d, retryGo (wEnv.attempts i) = .ok d → d.similarity < threshold →
        (evalIssue wEnv i issue).1 = emptyResult) ∧
    (∀ i issue, (evalIssue wEnv i issue).1 ≠ emptyResult →
        (evalIssue wEnv i issue).1.id = issue.id ∧
        threshold ≤ (evalIssue wEnv i issue).1.similarity) ∧
    emptyResult.id = "" ∧
    (∀ r ∈ [wSlot], r ∈ resultSlots wEnv [wIssue] ∧ r.id ≠ "" ∧
        threshold ≤ r.similarity) :=
  evaluator_threshold_props wEnv [wIssue] [wSlot]
    ⟨[wSlot], ⟨[wSlot], ⟨by decide, by decide⟩, rfl⟩, rfl⟩

/-- **C3.**  A candidate whose retried evaluation fails on all three
attempts has its slot written as the empty marker, emits a failure
notification, and the batch still succeeds: some output exists and every
related output of `SelectTopIssues` is a non-error (`.ok`) result. -/
theorem retry_exhaustion_degrades (env : SEnv) (issues : List Issue) (i : Nat)
    (issue : Issue) (e : String)
    (hi : issues[i]? = some issue)
    (hfail : retryGo (env.attempts i) = .error e) :
    (evalIssue env i issue).1 = emptyResult ∧
    NEvent.procError issue.key e ∈ (evalIssue env i issue).2 ∧
    (resultSlots env issues)[i]? = some emptyResult ∧
    (∃ l, runSelectTopIssues env issues (.ok l)) ∧
    (∀ out, runSelectTopIssues env issues out → ∃ l1, out = .ok l1) := by
  have hempty : (evalIssue env i issue).1 = emptyResult := by
    simp [evalIssue, hfail]
  refine ⟨hempty, ?_, ?_, ?_, ?_⟩
  · simp [evalIssue, hfail]
  · rw [resultSlots, List.getElem?_map, List.getElem?_enum, hi]
    simpa using hempty
  · cases issues with
    | nil => exact ⟨[], rfl⟩
    | cons a as =>
      rcases aggregateRel_total (resultSlots env (a :: as)) with ⟨l, hl⟩
      exact ⟨l, ⟨l, hl, rfl⟩⟩
  · intro out hout
    cases issues with
    | nil => exact ⟨[], hout⟩
    | cons a as =>
      have h1 : ∃ l1, aggregateRel (resultSlots env (a :: as)) l1 ∧
          out = .ok l1 := hout
      rcases h1 with ⟨l1, _, heq⟩
      exact ⟨l1, heq⟩

/-- **C3, witness**: the concrete single-candidate run under `c3Env`
(every attempt fails with `"boom"`). -/
theorem retry_exhaustion_degrades_witness :
    (evalIssue c3Env 0 wIssue).1 = emptyResult ∧
    NEvent.procError wIssue.key "boom" ∈ (evalIssue c3Env 0 wIssue).2 ∧
    (resultSlots c3Env [wIssue])[0]? = some emptyResult ∧
    (∃ l, runSelectTopIssues c3Env [wIssue] (.ok l)) ∧
    (∀ out, runSelectTopIssues c3Env [wIssue] out → ∃ l1, out = .ok l1) :=
  retry_exhaustion_degrades c3Env [wIssue] 0 wIssue "boom" rfl rfl

/-- **C6.**  For the empty candidate list, `SelectTopIssues` returns
exactly `([], nil)`, emits no notifications, allocates no result slots,
and the zero-task scheduler admits only the empty schedule. -/
theorem empty_candidate_list (env : SEnv) (slotVal : Nat → GoResult) :
    (∀ out, runSelectTopIssues env [] out ↔ out = .ok []) ∧
    runEvents env [] = [] ∧
    resultSlots env [] = [] ∧
    (∀ sch s1, Sched.runSched slotVal (Sched.initState 0) sch = some s1 →
       sch = [] ∧ s1 = Sched.initState 0) := by
  refine ⟨fun out => Iff.rfl, rfl, rfl, ?_⟩
  intro sch s1 h
  cases sch with
  | nil =>
    refine ⟨rfl, ?_⟩
    have : some (Sched.initState 0) = some s1 := h
    cases this; rfl
  | cons t rest =>
    exfalso
    have hstep : Sched.stepTask slotVal (Sched.initState 0) t = none := by
      simp [Sched.stepTask, Sched.initState]
    rw [Sched.runSched, hstep] at h
    cases h

/-- **C6, witness**: the theorem instantiated at `wEnv`, the constant
slot function, and the empty schedule. -/
theorem empty_candidate_list_witness :
    (runSelectTopIssues wEnv [] (.ok []) ↔ (Except.ok [] : Except String (List GoResult)) = .ok []) ∧
    runEvents wEnv [] = [] ∧
    resultSlots wEnv [] = [] ∧
    ([] = ([] : List Nat) ∧ Sched.initState 0 = Sched.initState 0) := by
  have h := empty_candidate_list wEnv (fun _ => emptyResult)
  exact ⟨h.1 (.ok []), h.2.1, h.2.2.1, h.2.2.2 [] (Sched.initState 0) rfl⟩

/-- **C10.**  A comment whose ADF body extracts to empty plain text is
omitted from `GetComments`: the returned list is exactly the rendering
of the comments with non-empty extracted text, in source order, so its
length never exceeds — and can be strictly smaller than — the number of
comments on the record (witnessed by `c10Issue`, which has two comments
but renders only one). -/
theorem getComments_omits_empty_bodies :
    (∀ issue : Issue,
      getComments issue
        = (issue.fields.comments.filter (fun c => !(extractTextFromADF c.body == ""))).map
            (fun c => renderComment c (extractTextFromADF c.body)) ∧
      (getComments issue).length ≤ issue.fields.comments.length) ∧
    (getComments c10Issue).length < c10Issue.fields.comments.length := by
  constructor
  · intro issue
    have h1 : getComments issue
        = (issue.fields.comments.filter (fun c => !(extractTextFromADF c.body == ""))).map
            (fun c => renderComment c (extractTextFromADF c.body)) :=
      getComments_eq_filter_map issue.fields.comments
    constructor
    · exact h1
    · rw [h1, List.length_map]
      exact List.length_filter_le _ _
  · decide

end Jipcy
